import Mathlib

set_option autoImplicit false

/-!
Shallow embedding of the indexing and padding core of the `video-dataset`
repository (`src/video_dataset/padder.py`, `src/video_dataset/annotations.py`,
`src/video_dataset/dataset.py`), together with theorems settling the claims
about it.  Frame values and annotation values are abstract types; a video is
modelled as its list of frames (the rows of the 4-dimensional numpy array) and
an annotation stream as its list of per-frame values.
-/

namespace VideoDatasetSpec

/-! ### Python slice semantics (positive step)

`slice.indices(length)` maps a possibly negative endpoint into `[0, length]`:
a negative endpoint counts from the end of the sequence (clamped below at 0),
a non-negative one is clamped above at `length`. -/

/-- Endpoint adjustment performed by Python `slice.indices(len)` for a
positive step. -/
def pyAdjIndex (x : Int) (len : Nat) : Nat :=
  if x < 0 then ((len : Int) + x).toNat else min x.toNat len

/-- Number of elements of the Python iteration `range(start, stop, step)` for
a positive `step`. -/
def pyRangeLen (start stop step : Nat) : Nat :=
  if start < stop then (stop - start - 1) / step + 1 else 0

/-- The list of indices visited by the Python iteration
`range(start, stop, step)` for a positive `step`. -/
def pyRange (start stop step : Nat) : List Nat :=
  (List.range (pyRangeLen start stop step)).map (fun k => start + k * step)

/-! ### Padder (`padder.py`)

`ValuePadder.__pad_frames` builds `np.full((target, ...), fill)` and assigns
the input into its first `n` rows; when `n > target` the numpy slice
assignment raises a broadcast `ValueError`, modelled as `none`.
`ValuePadder.__pad_annotations` uses Python list slice assignment
`padded[:n] = annotations`, which replaces the whole freshly built list by the
input when `n >= target`, so it is total. -/

/-- `ValuePadder.__pad_frames frames target_segment_size` (the frame array as
a list of frame rows). -/
def valuePadFrames {F : Type} (frames : List F) (fill : F) (t : Nat) :
    Option (List F) :=
  if frames.length ≤ t then some (frames ++ List.replicate (t - frames.length) fill)
  else none

/-- `ValuePadder.__pad_annotations annotations target_segment_size`. -/
def valuePadAnnotations {A : Type} (ann : List A) (fill : A) (t : Nat) : List A :=
  ann ++ List.replicate (t - ann.length) fill

/-- The Python slice `frames[-1:]`: the last frame as a singleton batch, or
the empty list when `frames` is empty. -/
def lastSliceOne {F : Type} (frames : List F) : List F :=
  frames.drop (frames.length - 1)

/-- `LastValuePadder.__pad_frames`: returns the input untouched when the pad
length `t - n` is non-positive, otherwise `np.vstack` of the input followed by
`t - n` copies of `frames[-1:]` (which is empty for an empty input, so an
empty input silently yields an empty result instead of an error). -/
def lastValuePadFrames {F : Type} (frames : List F) (t : Nat) : List F :=
  if t ≤ frames.length then frames
  else frames ++ (List.replicate (t - frames.length) (lastSliceOne frames)).flatten

/-- `LastValuePadder.__pad_annotations`: evaluates `annotations[-1]` first,
which raises `IndexError` on an empty list (modelled as `none`), then appends
`t - n` copies of it (no copies when `t <= n`, by Python list repetition). -/
def lastValuePadAnnotations {A : Type} (ann : List A) (t : Nat) : Option (List A) :=
  match ann.getLast? with
  | none => none
  | some last => some (ann ++ List.replicate (t - ann.length) last)

/-! ### Helper lemmas about padding by appending replicated values -/

lemma append_replicate_length {α : Type} (l : List α) (c : α) (t : Nat)
    (h : l.length ≤ t) : (l ++ List.replicate (t - l.length) c).length = t := by
  simp [List.length_append, Nat.add_sub_cancel' h]

lemma append_replicate_take {α : Type} (l : List α) (c : α) (k : Nat) :
    (l ++ List.replicate k c).take l.length = l := by
  simp [List.take_left]

lemma append_replicate_drop {α : Type} (l : List α) (c : α) (k : Nat) :
    ∀ x ∈ (l ++ List.replicate k c).drop l.length, x = c := by
  intro x hx
  rw [List.drop_left] at hx
  exact List.eq_of_mem_replicate hx

lemma join_replicate_singleton {α : Type} (k : Nat) (c : α) :
    (List.replicate k [c]).flatten = List.replicate k c := by
  induction k with
  | zero => rfl
  | succ n ih => simp [List.replicate_succ, ih]

lemma lastSliceOne_of_ne_nil {F : Type} (frames : List F) (h : frames ≠ []) :
    lastSliceOne frames = [frames.getLast h] := by
  induction frames with
  | nil => exact absurd rfl h
  | cons x xs ih =>
    cases xs with
    | nil => rfl
    | cons y ys =>
      have hys : (y :: ys : List F) ≠ [] := List.cons_ne_nil y ys
      have : lastSliceOne (x :: y :: ys) = lastSliceOne (y :: ys) := by
        simp [lastSliceOne]
      rw [this, ih hys]
      simp [List.getLast_cons]

/-- C6: for every non-empty frames input and non-empty annotations input whose
lengths are at most `target_length`, both padder variants return an output of
length exactly `target_length` whose first `original_length` entries equal the
input; the fixed-value padder fills the tail with the configured constant and
the last-value padder fills it with the final input entry. -/
theorem padder_extends_to_target {F A : Type} (frames : List F) (ann : List A)
    (fillF : F) (fillA : A) (t : Nat)
    (hf : frames ≠ []) (ha : ann ≠ [])
    (hft : frames.length ≤ t) (hat : ann.length ≤ t) :
    (∃ fr, valuePadFrames frames fillF t = some fr ∧ fr.length = t ∧
      fr.take frames.length = frames ∧ ∀ x ∈ fr.drop frames.length, x = fillF) ∧
    ((valuePadAnnotations ann fillA t).length = t ∧
      (valuePadAnnotations ann fillA t).take ann.length = ann ∧
      ∀ x ∈ (valuePadAnnotations ann fillA t).drop ann.length, x = fillA) ∧
    ((lastValuePadFrames frames t).length = t ∧
      (lastValuePadFrames frames t).take frames.length = frames ∧
      ∀ x ∈ (lastValuePadFrames frames t).drop frames.length, x = frames.getLast hf) ∧
    (∃ pa, lastValuePadAnnotations ann t = some pa ∧ pa.length = t ∧
      pa.take ann.length = ann ∧ ∀ x ∈ pa.drop ann.length, x = ann.getLast ha) := by
  refine ⟨?_, ⟨?_, ?_, ?_⟩, ?_, ?_⟩
  · refine ⟨frames ++ List.replicate (t - frames.length) fillF, ?_, ?_, ?_, ?_⟩
    · simp [valuePadFrames, hft]
    · exact append_replicate_length frames fillF t hft
    · exact append_replicate_take frames fillF _
    · exact append_replicate_drop frames fillF _
  · exact append_replicate_length ann fillA t hat
  · exact append_replicate_take ann fillA _
  · exact append_replicate_drop ann fillA _
  · by_cases hcase : t ≤ frames.length
    · have hlen : frames.length = t := Nat.le_antisymm hft hcase
      refine ⟨?_, ?_, ?_⟩
      · simp [lastValuePadFrames, hcase, hlen]
      · simp [lastValuePadFrames, hcase, List.take_length]
      · intro x hx
        simp [lastValuePadFrames, hcase, List.drop_length] at hx
    · have hform : lastValuePadFrames frames t =
          frames ++ List.replicate (t - frames.length) (frames.getLast hf) := by
        rw [lastValuePadFrames, if_neg hcase, lastSliceOne_of_ne_nil frames hf,
          join_replicate_singleton]
      refine ⟨?_, ?_, ?_⟩
      · rw [hform]; exact append_replicate_length frames _ t hft
      · rw [hform]; exact append_replicate_take frames _ _
      · rw [hform]; exact append_replicate_drop frames _ _
  · refine ⟨ann ++ List.replicate (t - ann.length) (ann.getLast ha), ?_, ?_, ?_, ?_⟩
    · rw [lastValuePadAnnotations, List.getLast?_eq_getLast ann ha]
    · exact append_replicate_length ann _ t hat
    · exact append_replicate_take ann _ _
    · exact append_replicate_drop ann _ _

/-- Witness for C6 at frames `[1, 2]`, annotations `[7]`, target length 3. -/
theorem padder_extends_to_target_witness :
    (∃ fr, valuePadFrames ([1, 2] : List Nat) 0 3 = some fr ∧ fr.length = 3 ∧
      fr.take 2 = [1, 2] ∧ ∀ x ∈ fr.drop 2, x = 0) ∧
    ((valuePadAnnotations ([7] : List Nat) 8 3).length = 3 ∧
      (valuePadAnnotations ([7] : List Nat) 8 3).take 1 = [7] ∧
      ∀ x ∈ (valuePadAnnotations ([7] : List Nat) 8 3).drop 1, x = 8) ∧
    ((lastValuePadFrames ([1, 2] : List Nat) 3).length = 3 ∧
      (lastValuePadFrames ([1, 2] : List Nat) 3).take 2 = [1, 2] ∧
      ∀ x ∈ (lastValuePadFrames ([1, 2] : List Nat) 3).drop 2, x = 2) ∧
    (∃ pa, lastValuePadAnnotations ([7] : List Nat) 3 = some pa ∧ pa.length = 3 ∧
      pa.take 1 = [7] ∧ ∀ x ∈ pa.drop 1, x = 7) :=
  padder_extends_to_target [1, 2] [7] 0 8 3 (by decide) (by decide)
    (by decide) (by decide)

/-- C7 counterexample: the fixed-value padder is not a no-op on a frames input
longer than the target length; the numpy assignment of 2 rows into a 1-row
array raises a broadcast error (modelled as `none`) instead of returning the
input unchanged. -/
theorem value_padder_frames_overflow_raises :
    valuePadFrames ([1, 2] : List Nat) 0 1 = none := rfl

/-- C7 (amended): when the input length is at least `target_length`, the
last-value padder is a no-op on both halves and the fixed-value padder is a
no-op on the annotations half; the fixed-value padder frames half is a no-op
only when the length equals the target exactly, and fails with a broadcast
error when the length strictly exceeds the target. -/
theorem padder_noop_at_or_above_target {F A : Type} (frames : List F) (ann : List A)
    (fillF : F) (fillA : A) (t : Nat) (ha : ann ≠ [])
    (hft : t ≤ frames.length) (hat : t ≤ ann.length) :
    lastValuePadFrames frames t = frames ∧
    lastValuePadAnnotations ann t = some ann ∧
    valuePadAnnotations ann fillA t = ann ∧
    (frames.length = t → valuePadFrames frames fillF t = some frames) ∧
    (t < frames.length → valuePadFrames frames fillF t = none) := by
  refine ⟨?_, ?_, ?_, ?_, ?_⟩
  · simp [lastValuePadFrames, hft]
  · rw [lastValuePadAnnotations, List.getLast?_eq_getLast ann ha]
    simp [Nat.sub_eq_zero_of_le hat]
  · rw [valuePadAnnotations, Nat.sub_eq_zero_of_le hat, List.replicate_zero,
      List.append_nil]
  · intro hlen
    simp [valuePadFrames, hlen]
  · intro hlt
    simp [valuePadFrames, Nat.not_le.mpr hlt]

/-- Witness for C7 (amended) at frames `[1, 2]`, annotations `[7, 8]`,
target length 2. -/
theorem padder_noop_witness :
    lastValuePadFrames ([1, 2] : List Nat) 2 = [1, 2] ∧
    lastValuePadAnnotations ([7, 8] : List Nat) 2 = some [7, 8] ∧
    valuePadAnnotations ([7, 8] : List Nat) 5 2 = [7, 8] ∧
    (([1, 2] : List Nat).length = 2 → valuePadFrames ([1, 2] : List Nat) 0 2 = some [1, 2]) ∧
    (2 < ([1, 2] : List Nat).length → valuePadFrames ([1, 2] : List Nat) 0 2 = none) :=
  padder_noop_at_or_above_target [1, 2] [7, 8] 0 5 2 (by decide) (by decide) (by decide)

/-- C8: evaluation of the last-value padder at the failing input (empty input,
positive target length 3).  The annotations half does fail (`annotations[-1]`
raises `IndexError`, modelled as `none`), but the frames half silently returns
an empty result: `frames[-1:]` is empty, so the `np.vstack` of the input and
the replicated last-slice is empty rather than an error, contradicting the
required invalid-input failure. -/
theorem last_value_padder_empty_input :
    lastValuePadAnnotations ([] : List Nat) 3 = none ∧
    lastValuePadFrames ([] : List Nat) 3 = [] := ⟨rfl, rfl⟩

/-! ### Annotation sequence sources (`annotations.py`)

Both `AnnotationsFromFrameLevelTxtFileAnnotations` and
`AnnotationsFromSegmentLevelCsvFileAnnotations` keep a list of per-frame
annotation values (the lines of the txt file, respectively the loaded csv
rows expanded to frame level) and share the same `__getitem__` logic: an
integer index is bounds-checked against `real_length + max_overflow_value`
and answered with the stored value or the fallback, while a slice is passed
through `slice.indices(real_length + max_overflow_value)` and answered
element-wise, with the fallback past the real length. -/

structure AnnSource (A : Type) where
  annotations : List A
  fallback_annotation : A
  max_overflow_value : Nat

instance {A : Type} [Inhabited A] : Inhabited (AnnSource A) :=
  ⟨⟨[], default, 0⟩⟩

/-- The integer branch of `__getitem__`: raise `IndexError` outside
`[0, real_length + max_overflow_value)`, else `__get_annotation`, which
returns the fallback at or past the real length. -/
def annGetSingle {A : Type} (src : AnnSource A) (index : Int) : Except String A :=
  if index < 0 ∨ ((src.annotations.length + src.max_overflow_value : Nat) : Int) ≤ index then
    Except.error "Index out of bounds"
  else if (src.annotations.length : Int) ≤ index then
    Except.ok src.fallback_annotation
  else
    Except.ok (src.annotations.getD index.toNat src.fallback_annotation)

/-- The slice branch of `__getitem__`:
`start, stop, step = index.indices(real_length + max_overflow_value)` followed
by `__get_annotations`, which loops over `range(start, stop, step)` appending
the stored value below the real length and the fallback above it.  This
branch contains no raise: endpoints are clamped by `slice.indices`. -/
def annGetSlice {A : Type} (src : AnnSource A) (start stop : Int) (step : Nat) :
    List A :=
  let bound := src.annotations.length + src.max_overflow_value
  let a := pyAdjIndex start bound
  let b := pyAdjIndex stop bound
  (pyRange a b step).map (fun i =>
    if i < src.annotations.length then src.annotations.getD i src.fallback_annotation
    else src.fallback_annotation)

/-- C9 counterexample: slice access past the overflow tolerance does not fail;
for a source with one real annotation `5`, fallback `9` and tolerance 2, the
slice `[0:10]` is silently clamped to bound 3 and returns `[5, 9, 9]` instead
of raising an index-out-of-range error as the claim requires. -/
theorem ann_slice_past_tolerance_clamped :
    annGetSlice (AnnSource.mk [5] 9 2) 0 10 1 = [5, 9, 9] := rfl

/-- C9 (amended): single-index access returns the fallback on
`real_length <= i < real_length + overflow_tolerance` and fails with an
index-out-of-range error for `i >= real_length + overflow_tolerance`; slice
access never fails: endpoints past the tolerance are silently clamped to it
by the Python slice semantics, so slicing to any stop at or past the bound
equals slicing exactly to the bound. -/
theorem annotation_access_spec {A : Type} (src : AnnSource A) :
    (∀ i : Int, (src.annotations.length : Int) ≤ i →
      i < ((src.annotations.length + src.max_overflow_value : Nat) : Int) →
      annGetSingle src i = Except.ok src.fallback_annotation) ∧
    (∀ i : Int, ((src.annotations.length + src.max_overflow_value : Nat) : Int) ≤ i →
      annGetSingle src i = Except.error "Index out of bounds") ∧
    (∀ start stop : Int,
      ((src.annotations.length + src.max_overflow_value : Nat) : Int) ≤ stop →
      annGetSlice src start stop 1 =
        annGetSlice src start ((src.annotations.length + src.max_overflow_value : Nat) : Int) 1) := by
  refine ⟨?_, ?_, ?_⟩
  · intro i hlo hhi
    have h0 : (0 : Int) ≤ i := le_trans (Int.natCast_nonneg _) hlo
    simp only [annGetSingle]
    rw [if_neg (by push_neg; exact ⟨h0, hhi⟩), if_pos hlo]
  · intro i hgo
    simp only [annGetSingle]
    rw [if_pos (Or.inr hgo)]
  · intro start stop hstop
    have hb : pyAdjIndex stop (src.annotations.length + src.max_overflow_value) =
        src.annotations.length + src.max_overflow_value := by
      have h0 : (0 : Int) ≤ stop := le_trans (Int.natCast_nonneg _) hstop
      rw [pyAdjIndex, if_neg (Int.not_lt.mpr h0)]
      have : src.annotations.length + src.max_overflow_value ≤ stop.toNat := by
        exact_mod_cast Int.toNat_le_toNat hstop
      simp [Nat.min_eq_right this]
    have hb2 : pyAdjIndex ((src.annotations.length + src.max_overflow_value : Nat) : Int)
        (src.annotations.length + src.max_overflow_value) =
        src.annotations.length + src.max_overflow_value := by
      rw [pyAdjIndex, if_neg (Int.not_lt.mpr (Int.natCast_nonneg _)),
        Int.toNat_natCast, Nat.min_self]
    simp only [annGetSlice]
    rw [hb, hb2]

/-- Witness for C9 (amended) at the source with one annotation `5`, fallback
`9` and tolerance 2. -/
theorem annotation_access_spec_witness :
    annGetSingle (AnnSource.mk [5] 9 2) 1 = Except.ok 9 ∧
    annGetSingle (AnnSource.mk [5] 9 2) 3 = Except.error "Index out of bounds" ∧
    annGetSlice (AnnSource.mk [5] 9 2) 0 10 1 = annGetSlice (AnnSource.mk [5] 9 2) 0 3 1 :=
  ⟨(annotation_access_spec (AnnSource.mk [5] 9 2)).1 1 (by decide) (by decide),
   (annotation_access_spec (AnnSource.mk [5] 9 2)).2.1 3 (by decide),
   (annotation_access_spec (AnnSource.mk [5] 9 2)).2.2 0 10 (by decide)⟩

/-! ### Dataset core (`dataset.py`)

A video is its list of frames; the dataset owns a list of videos and a list
of annotation sources, plus a validated positive `segment_size` and a stride
`step` (`None` in the source, which Python slicing treats as 1). -/

/-- Slicing a video: `video[start:stop:step]` for a positive step, per
`VideoFromVideoFramesDirectory.__getitem__` (endpoints through
`slice.indices(len(video))`, then one frame per index of the range). -/
def videoGetFrames {F : Type} [Inhabited F] (frames : List F) (start stop : Int)
    (step : Nat) : List F :=
  let a := pyAdjIndex start frames.length
  let b := pyAdjIndex stop frames.length
  (pyRange a b step).map (fun i => frames.getD i default)

/-- The list `[len(video) // self.segment_size for video in self.videos]`
built inside `__translate_virtual_video_index_to_video_index`. -/
def videos_cropped_frames_number {F : Type} (videos : List (List F))
    (segment_size : Nat) : List Nat :=
  videos.map (fun video => video.length / segment_size)

/-- Running partial sums starting from accumulator `acc`. -/
def accumFrom : Nat → List Nat → List Nat
  | _, [] => []
  | acc, x :: xs => (acc + x) :: accumFrom (acc + x) xs

/-- `itertools.accumulate`: the list of running partial sums (same length as
the input, no leading zero). -/
def accumulate (l : List Nat) : List Nat :=
  accumFrom 0 l

/-- `bisect.bisect_right` on the nondecreasing cumulative list: the length of
the longest prefix of entries `<= x`, i.e. the insertion point to the right
of `x`. -/
def bisect_right (l : List Nat) (x : Int) : Nat :=
  (l.takeWhile (fun (c : Nat) => decide ((c : Int) ≤ x))).length

/-- The local `cumulative_videos_cropped_frames_number`. -/
def cumulative_counts {F : Type} (videos : List (List F)) (segment_size : Nat) :
    List Nat :=
  accumulate (videos_cropped_frames_number videos segment_size)

/-- The local `previous_frames`:
`0 if video_index == 0 else cumulative[video_index - 1]`. -/
def previous_frames {F : Type} (videos : List (List F)) (segment_size : Nat)
    (video_index : Nat) : Int :=
  if video_index = 0 then 0
  else ((cumulative_counts videos segment_size).getD (video_index - 1) 0 : Nat)

/-- `VideoDataset.__translate_virtual_video_index_to_video_index`: bisect the
cumulative per-video segment counts, raise `ValueError` when the resulting
video index is out of range, else return the video index together with
`(virtual_video_index - previous_frames) * segment_size`. -/
def translate_virtual_video_index_to_video_index {F : Type}
    (videos : List (List F)) (segment_size : Nat) (virtual_video_index : Int) :
    Except String (Nat × Int) :=
  let video_index := bisect_right (cumulative_counts videos segment_size) virtual_video_index
  if (videos_cropped_frames_number videos segment_size).length ≤ video_index then
    Except.error "Virtual video index is out of range."
  else
    Except.ok (video_index,
      (virtual_video_index - previous_frames videos segment_size video_index) * segment_size)

/-- `VideoDataset.__len__`:
`sum([len(video) // self.segment_size for video in self.videos])`. -/
def datasetLength {F : Type} (videos : List (List F)) (segment_size : Nat) : Nat :=
  (videos.map (fun video => video.length / segment_size)).sum

/-- The transpose step `frames.transpose(self.video_shape)` for the default
`DEFAULT_VIDEO_SHAPE` (the identity permutation): the numpy array built from
a non-empty list of 3-dimensional frames is 4-dimensional, and the identity
permutation leaves it unchanged; but the array built from an empty slice is
`np.array([])`, which is 1-dimensional, so the 4-axis permutation raises
`ValueError` (axes do not match the array). -/
def transpose_default {F : Type} (frames : List F) : Except String (List F) :=
  if frames.isEmpty then Except.error "numpy transpose: axes do not match array"
  else Except.ok frames

/-- `VideoDataset.__getitem__` with the default `video_shape` and no frame or
annotation transform: translate the virtual index, slice
`[starting_frame : starting_frame + segment_size : step]` out of the resolved
video and annotation source, then apply the numpy transpose with the default
(identity) axis permutation, which fails when the frame slice is empty
because the resulting array is 1-dimensional.  (The source slices the
annotations before transposing the frames; annotation slicing is total, so
the order is immaterial.) -/
def getItem {F A : Type} [Inhabited F] [Inhabited A] (videos : List (List F))
    (annotations : List (AnnSource A)) (segment_size : Nat) (step : Nat)
    (virtual_video_index : Int) : Except String (List F × List A) :=
  match translate_virtual_video_index_to_video_index videos segment_size virtual_video_index with
  | Except.error e => Except.error e
  | Except.ok (video_index, starting_frame) =>
    match transpose_default (videoGetFrames (videos.getD video_index []) starting_frame
        (starting_frame + segment_size) step) with
    | Except.error e => Except.error e
    | Except.ok frames =>
      Except.ok (frames,
        annGetSlice (annotations.getD video_index default) starting_frame
          (starting_frame + segment_size) step)

/-- The `segment_size` argument as it reaches `VideoDataset.__params_check`:
either not a Python int at all (for example `None`) or an int value. -/
inductive PySegmentSize where
  | notInt
  | int (value : Int)

/-- The two `segment_size` checks of `VideoDataset.__params_check`
(lines 149-153): reject a non-int, then reject a non-positive int. -/
def segment_size_check : PySegmentSize → Except String Unit
  | PySegmentSize.notInt => Except.error "Segment size must be an integer."
  | PySegmentSize.int value =>
    if value ≤ 0 then Except.error "Segment size must be a positive integer."
    else Except.ok ()

/-! ### Toolbox: takeWhile and accumulate -/

lemma takeWhile_getD_sat {α : Type} (p : α → Bool) (l : List α) (d : α) :
    ∀ j, j < (l.takeWhile p).length → p (l.getD j d) = true := by
  induction l with
  | nil => intro j hj; simp [List.takeWhile] at hj
  | cons x xs ih =>
    intro j hj
    by_cases hx : p x = true
    · rw [List.takeWhile_cons, if_pos hx] at hj
      cases j with
      | zero => simpa using hx
      | succ k =>
        simp only [List.length_cons, Nat.succ_lt_succ_iff] at hj
        simpa using ih k hj
    · rw [List.takeWhile_cons, if_neg hx] at hj
      simp at hj
lemma takeWhile_getD_fail {α : Type} (p : α → Bool) (l : List α) (d : α)
    (h : (l.takeWhile p).length < l.length) :
    p (l.getD (l.takeWhile p).length d) = false := by
  induction l with
  | nil => simp at h
  | cons x xs ih =>
    by_cases hx : p x = true
    · rw [List.takeWhile_cons, if_pos hx] at h ⊢
      simp only [List.length_cons, Nat.succ_lt_succ_iff] at h
      simpa using ih h
    · rw [List.takeWhile_cons, if_neg hx] at h ⊢
      simpa using hx

lemma takeWhile_length_le {α : Type} (p : α → Bool) (l : List α) :
    (l.takeWhile p).length ≤ l.length := by
  induction l with
  | nil => simp [List.takeWhile]
  | cons x xs ih =>
    rw [List.takeWhile_cons]
    by_cases hx : p x = true
    · rw [if_pos hx]
      simpa using Nat.succ_le_succ ih
    · rw [if_neg hx]
      simp

lemma accumFrom_length (a : Nat) (l : List Nat) :
    (accumFrom a l).length = l.length := by
  induction l generalizing a with
  | nil => rfl
  | cons x xs ih => simp [accumFrom, ih]

lemma accumFrom_mem_le (a : Nat) (l : List Nat) :
    ∀ x ∈ accumFrom a l, x ≤ a + l.sum := by
  induction l generalizing a with
  | nil => intro x hx; simp [accumFrom] at hx
  | cons y ys ih =>
    intro x hx
    rw [accumFrom] at hx
    rcases List.mem_cons.mp hx with h | h
    · subst h
      simp [Nat.le_add_right]
    · have := ih (a + y) x h
      simpa [Nat.add_assoc] using this

lemma accumFrom_getD_zero (a x : Nat) (xs : List Nat) :
    (accumFrom a (x :: xs)).getD 0 0 = a + x := rfl

lemma accumFrom_getD_succ (a : Nat) (l : List Nat) :
    ∀ i, i + 1 < l.length →
      (accumFrom a l).getD (i + 1) 0 = (accumFrom a l).getD i 0 + l.getD (i + 1) 0 := by
  induction l generalizing a with
  | nil => intro i hi; simp at hi
  | cons x xs ih =>
    intro i hi
    simp only [List.length_cons, Nat.succ_lt_succ_iff] at hi
    cases i with
    | zero =>
      cases xs with
      | nil => simp at hi
      | cons y ys => simp [accumFrom]
    | succ k =>
      have hk : k + 1 < xs.length := hi
      have := ih (a + x) k hk
      simpa [accumFrom] using this

lemma accumFrom_getD_last (a : Nat) (l : List Nat) (h : l ≠ []) :
    (accumFrom a l).getD (l.length - 1) 0 = a + l.sum := by
  induction l generalizing a with
  | nil => exact absurd rfl h
  | cons x xs ih =>
    cases xs with
    | nil => simp [accumFrom]
    | cons y ys =>
      have hne : (y :: ys : List Nat) ≠ [] := List.cons_ne_nil y ys
      have hlen : (x :: y :: ys : List Nat).length - 1 = (y :: ys : List Nat).length := rfl
      rw [hlen]
      have step : (accumFrom a (x :: y :: ys)).getD (y :: ys : List Nat).length 0 =
          (accumFrom (a + x) (y :: ys)).getD ((y :: ys : List Nat).length - 1) 0 := rfl
      rw [step, ih (a + x) hne]
      simp [Nat.add_assoc]

lemma counts_getD {F : Type} (videos : List (List F)) (s : Nat) :
    ∀ v, v < videos.length →
      (videos_cropped_frames_number videos s).getD v 0 = (videos.getD v []).length / s := by
  induction videos with
  | nil => intro v hv; simp at hv
  | cons x xs ih =>
    intro v hv
    cases v with
    | zero => rfl
    | succ k =>
      simp only [List.length_cons, Nat.succ_lt_succ_iff] at hv
      simpa [videos_cropped_frames_number] using ih k hv

lemma counts_length {F : Type} (videos : List (List F)) (s : Nat) :
    (videos_cropped_frames_number videos s).length = videos.length := by
  simp [videos_cropped_frames_number]

lemma cumulative_length {F : Type} (videos : List (List F)) (s : Nat) :
    (cumulative_counts videos s).length = videos.length := by
  rw [cumulative_counts, accumulate, accumFrom_length, counts_length]

lemma datasetLength_eq_counts_sum {F : Type} (videos : List (List F)) (s : Nat) :
    datasetLength videos s = (videos_cropped_frames_number videos s).sum := rfl

lemma transpose_default_of_ne_nil {F : Type} (l : List F) (h : l ≠ []) :
    transpose_default l = Except.ok l := by
  cases l with
  | nil => exact absurd rfl h
  | cons x xs => rfl

lemma transpose_default_nil {F : Type} :
    transpose_default ([] : List F) =
      Except.error "numpy transpose: axes do not match array" := rfl

/-! ### C1: closed form of the dataset length

The source has no overlap parameter at all, so the only configurable overlap
is 0 and `__len__` must match the closed form at `overlap = 0`. -/

/-- C1: for every configuration (segment size `s` positive, overlap fixed at 0
because the source exposes no overlap parameter) and underlying video lengths,
`length()` equals `sum(max(0, l_i - o) // (s - o))`. -/
theorem dataset_length_closed_form {F : Type} (videos : List (List F))
    (segment_size overlap : Nat) (_hs : 0 < segment_size) (ho : overlap = 0) :
    datasetLength videos segment_size =
      (videos.map (fun video =>
        (max 0 ((video.length : Int) - (overlap : Int))).toNat /
          (segment_size - overlap))).sum := by
  subst ho
  induction videos with
  | nil => rfl
  | cons x xs ih =>
    have hmax : (max 0 ((x.length : Int) - ((0 : Nat) : Int))).toNat = x.length := by
      rw [Nat.cast_zero, sub_zero, max_eq_right (Int.natCast_nonneg _), Int.toNat_natCast]
    simp only [datasetLength, List.map_cons, List.sum_cons, Nat.sub_zero] at ih ⊢
    rw [hmax, ih]

/-- Witness for C1 at video lengths `[5, 2]` and segment size 2. -/
theorem dataset_length_closed_form_witness :
    datasetLength ([[0, 0, 0, 0, 0], [0, 0]] : List (List Nat)) 2 =
      (([[0, 0, 0, 0, 0], [0, 0]] : List (List Nat)).map (fun video =>
        (max 0 ((video.length : Int) - ((0 : Nat) : Int))).toNat /
          (2 - (0 : Nat)))).sum :=
  dataset_length_closed_form [[0, 0, 0, 0, 0], [0, 0]] 2 0 (by decide) rfl

/-! ### C2: out-of-range global indices fail -/

lemma takeWhile_eq_self_of_all {α : Type} (p : α → Bool) (l : List α)
    (h : ∀ x ∈ l, p x = true) : l.takeWhile p = l := by
  induction l with
  | nil => rfl
  | cons x xs ih =>
    rw [List.takeWhile_cons, if_pos (h x (List.mem_cons_self x xs))]
    rw [ih (fun y hy => h y (List.mem_cons_of_mem x hy))]

lemma translate_out_of_range {F : Type} (videos : List (List F)) (s : Nat) (g : Int)
    (hg : (datasetLength videos s : Int) ≤ g) :
    translate_virtual_video_index_to_video_index videos s g =
      Except.error "Virtual video index is out of range." := by
  have hall : ∀ c ∈ cumulative_counts videos s,
      (fun (c : Nat) => decide ((c : Int) ≤ g)) c = true := by
    intro c hc
    have hle : c ≤ (videos_cropped_frames_number videos s).sum := by
      simpa using accumFrom_mem_le 0 (videos_cropped_frames_number videos s) c hc
    have hci : (c : Int) ≤ g := by
      refine le_trans ?_ hg
      rw [datasetLength_eq_counts_sum]
      exact_mod_cast hle
    exact decide_eq_true hci
  have hlen : bisect_right (cumulative_counts videos s) g =
      (cumulative_counts videos s).length := by
    unfold bisect_right
    rw [takeWhile_eq_self_of_all _ _ hall]
  have hcond : (videos_cropped_frames_number videos s).length ≤
      bisect_right (cumulative_counts videos s) g := by
    rw [hlen, cumulative_length, counts_length]
  simp only [translate_virtual_video_index_to_video_index]
  rw [if_pos hcond]

/-- C2: `get(g)` for every `g >= length()` fails with the out-of-range
`ValueError` of the translation step, for every configuration (including the
degenerate one where every video has zero segments and `length()` is 0). -/
theorem get_out_of_range_fails {F A : Type} [Inhabited F] [Inhabited A]
    (videos : List (List F)) (annotations : List (AnnSource A))
    (segment_size step : Nat) (_hs : 0 < segment_size) (g : Int)
    (hg : (datasetLength videos segment_size : Int) ≤ g) :
    getItem videos annotations segment_size step g =
      Except.error "Virtual video index is out of range." := by
  simp only [getItem]
  rw [translate_out_of_range videos segment_size g hg]

/-- Witness for C2 on the degenerate dataset of two zero-length videos, where
`length()` is 0 and already `get(0)` fails. -/
theorem get_out_of_range_fails_witness :
    getItem ([[], []] : List (List Nat))
        [AnnSource.mk ([] : List Nat) 0 0, AnnSource.mk ([] : List Nat) 0 0] 2 1 0 =
      Except.error "Virtual video index is out of range." :=
  get_out_of_range_fails [[], []]
    [AnnSource.mk ([] : List Nat) 0 0, AnnSource.mk ([] : List Nat) 0 0] 2 1
    (by decide) 0 (by decide)

/-! ### C5: there is no whole-video sentinel -/

/-- C5 counterexample: no whole-video sentinel exists; `__params_check`
rejects every candidate sentinel for `segment_size` (a non-int such as `None`,
the int 0, a negative int) with a configuration error, so a dataset can never
be constructed in whole-video mode. -/
theorem whole_video_sentinel_rejected :
    segment_size_check PySegmentSize.notInt =
      Except.error "Segment size must be an integer." ∧
    segment_size_check (PySegmentSize.int 0) =
      Except.error "Segment size must be a positive integer." ∧
    segment_size_check (PySegmentSize.int (-1)) =
      Except.error "Segment size must be a positive integer." :=
  ⟨rfl, rfl, rfl⟩

/-- C5 (amended): the code has no whole-video mode; `segment_size` passes
`__params_check` exactly when it is a positive int, and every would-be
sentinel value (non-int, or int `<= 0`) is rejected at construction. -/
theorem segment_size_check_spec :
    ∀ ss : PySegmentSize, (∃ e, segment_size_check ss = Except.error e) ↔
      (ss = PySegmentSize.notInt ∨ ∃ n, ss = PySegmentSize.int n ∧ n ≤ 0) := by
  intro ss
  cases ss with
  | notInt =>
    constructor
    · intro _
      exact Or.inl rfl
    · intro _
      exact ⟨"Segment size must be an integer.", rfl⟩
  | int v =>
    simp only [segment_size_check]
    by_cases hv : v ≤ 0
    · simp [hv]
    · simp [hv]

/-! ### C3: resolution of a valid global index and the index round-trip -/

lemma bisect_right_sat (l : List Nat) (g : Int) :
    ∀ j, j < bisect_right l g → ((l.getD j 0 : Nat) : Int) ≤ g := fun j hj =>
  of_decide_eq_true (takeWhile_getD_sat (fun (c : Nat) => decide ((c : Int) ≤ g)) l 0 j hj)

lemma bisect_right_fail (l : List Nat) (g : Int) (h : bisect_right l g < l.length) :
    g < ((l.getD (bisect_right l g) 0 : Nat) : Int) :=
  not_le.mp
    (of_decide_eq_false (takeWhile_getD_fail (fun (c : Nat) => decide ((c : Int) ≤ g)) l 0 h))

lemma bisect_right_le_length (l : List Nat) (g : Int) : bisect_right l g ≤ l.length :=
  takeWhile_length_le _ _

lemma bisect_right_accumulate_lt (l : List Nat) (g : Int) (hg0 : 0 ≤ g)
    (hg : g < (l.sum : Int)) : bisect_right (accumulate l) g < l.length := by
  by_contra hcon
  push_neg at hcon
  have hle : bisect_right (accumulate l) g ≤ (accumulate l).length :=
    bisect_right_le_length _ _
  have hlen : (accumulate l).length = l.length := accumFrom_length 0 l
  have heq : bisect_right (accumulate l) g = l.length :=
    le_antisymm (hlen ▸ hle) hcon
  have hne : l ≠ [] := by
    intro h
    subst h
    simp only [List.sum_nil, Nat.cast_zero] at hg
    omega
  have hlast : (accumulate l).getD (l.length - 1) 0 = l.sum := by
    simpa using accumFrom_getD_last 0 l hne
  have hj : l.length - 1 < bisect_right (accumulate l) g := by
    rw [heq]
    have := List.length_pos.mpr hne
    omega
  have hsat := bisect_right_sat (accumulate l) g (l.length - 1) hj
  rw [hlast] at hsat
  exact absurd hg (not_lt.mpr hsat)

/-- Core correctness of the translation step on a valid global index: the
returned video index is the smallest one whose cumulative segment count
strictly exceeds the global index, the start offset is
`(global_index - cumulative[v-1]) * segment_size`, and the forward formula
`cumulative[v-1] + start_offset / segment_size` reproduces the global index. -/
lemma translate_spec_aux {F : Type} (videos : List (List F)) (segment_size : Nat)
    (hs : 0 < segment_size) (g : Int) (hg0 : 0 ≤ g)
    (hg : g < (datasetLength videos segment_size : Int)) :
    ∃ v off, translate_virtual_video_index_to_video_index videos segment_size g =
        Except.ok (v, off) ∧
      v < videos.length ∧
      g < ((cumulative_counts videos segment_size).getD v 0 : Int) ∧
      (∀ j, j < v → ((cumulative_counts videos segment_size).getD j 0 : Int) ≤ g) ∧
      off = (g - previous_frames videos segment_size v) * segment_size ∧
      previous_frames videos segment_size v + off / segment_size = g := by
  have hsum : g < ((videos_cropped_frames_number videos segment_size).sum : Int) := by
    rw [datasetLength_eq_counts_sum] at hg
    exact hg
  have hlt0 : bisect_right (cumulative_counts videos segment_size) g <
      videos.length := by
    have h := bisect_right_accumulate_lt (videos_cropped_frames_number videos segment_size)
      g hg0 hsum
    rw [counts_length] at h
    exact h
  have hltc : bisect_right (cumulative_counts videos segment_size) g <
      (videos_cropped_frames_number videos segment_size).length := by
    rw [counts_length]
    exact hlt0
  have hltcum : bisect_right (cumulative_counts videos segment_size) g <
      (cumulative_counts videos segment_size).length := by
    rw [cumulative_length]
    exact hlt0
  refine ⟨bisect_right (cumulative_counts videos segment_size) g,
    (g - previous_frames videos segment_size
        (bisect_right (cumulative_counts videos segment_size) g)) * segment_size,
    ?_, hlt0, ?_, ?_, rfl, ?_⟩
  · simp only [translate_virtual_video_index_to_video_index]
    rw [if_neg (not_le.mpr hltc)]
  · exact bisect_right_fail _ g hltcum
  · exact bisect_right_sat _ g
  · have hs0 : ((segment_size : Nat) : Int) ≠ 0 := by
      exact_mod_cast hs.ne'
    rw [Int.mul_ediv_cancel _ hs0]
    ring

/-- C3: for every valid global index `g`, the translation returns the smallest
video index `v` whose cumulative per-video segment count strictly exceeds `g`
together with start offset `(g - cumulative[v-1]) * segment_size` (with
`cumulative[v-1]` taken as 0 for `v = 0`, and `segment_size` standing for
`segment_size - overlap` because the source never configures an overlap), and
re-deriving the global index via the forward formula
`cumulative[v-1] + start_offset / segment_size` reproduces `g` exactly. -/
theorem translate_resolves_and_round_trips {F : Type} (videos : List (List F))
    (segment_size : Nat) (hs : 0 < segment_size) (g : Int) (hg0 : 0 ≤ g)
    (hg : g < (datasetLength videos segment_size : Int)) :
    ∃ v off, translate_virtual_video_index_to_video_index videos segment_size g =
        Except.ok (v, off) ∧
      v < videos.length ∧
      g < ((cumulative_counts videos segment_size).getD v 0 : Int) ∧
      (∀ j, j < v → ((cumulative_counts videos segment_size).getD j 0 : Int) ≤ g) ∧
      off = (g - previous_frames videos segment_size v) * segment_size ∧
      previous_frames videos segment_size v + off / segment_size = g :=
  translate_spec_aux videos segment_size hs g hg0 hg

/-- Witness for C3 on two videos of lengths 3 and 2 with segment size 2, at
global index 1 (which resolves to the second video, start offset 0). -/
theorem translate_resolves_and_round_trips_witness :
    ∃ v off, translate_virtual_video_index_to_video_index
        ([[0, 0, 0], [0, 0]] : List (List Nat)) 2 1 = Except.ok (v, off) ∧
      v < 2 ∧
      (1 : Int) < ((cumulative_counts ([[0, 0, 0], [0, 0]] : List (List Nat)) 2).getD v 0 : Int) ∧
      (∀ j, j < v →
        ((cumulative_counts ([[0, 0, 0], [0, 0]] : List (List Nat)) 2).getD j 0 : Int) ≤ 1) ∧
      off = (1 - previous_frames ([[0, 0, 0], [0, 0]] : List (List Nat)) 2 v) * 2 ∧
      previous_frames ([[0, 0, 0], [0, 0]] : List (List Nat)) 2 v + off / 2 = 1 :=
  translate_resolves_and_round_trips [[0, 0, 0], [0, 0]] 2 (by decide) 1
    (by decide) (by decide)

/-! ### C4: number of frames and annotations returned by a valid access -/

lemma pyAdjIndex_of_nonneg_le (x : Int) (len : Nat) (h0 : 0 ≤ x)
    (hl : x ≤ (len : Int)) : pyAdjIndex x len = x.toNat := by
  rw [pyAdjIndex, if_neg (Int.not_lt.mpr h0)]
  exact Nat.min_eq_left (Int.toNat_le.mpr hl)

lemma pyRange_one_length (a b : Nat) : (pyRange a b 1).length = b - a := by
  rw [pyRange, List.length_map, List.length_range, pyRangeLen]
  by_cases h : a < b
  · rw [if_pos h, Nat.div_one]
    omega
  · rw [if_neg h]
    omega

lemma videoGetFrames_length {F : Type} [Inhabited F] (l : List F) (start : Int)
    (s : Nat) (h0 : 0 ≤ start) (hend : start + s ≤ (l.length : Int)) :
    (videoGetFrames l start (start + s) 1).length = s := by
  have hstart_le : start ≤ (l.length : Int) :=
    le_trans (le_add_of_nonneg_right (Int.natCast_nonneg s)) hend
  have hstop0 : 0 ≤ start + s := add_nonneg h0 (Int.natCast_nonneg s)
  simp only [videoGetFrames]
  rw [pyAdjIndex_of_nonneg_le start l.length h0 hstart_le,
    pyAdjIndex_of_nonneg_le (start + s) l.length hstop0 hend,
    List.length_map, pyRange_one_length]
  omega

lemma annGetSlice_length {A : Type} (src : AnnSource A) (start : Int) (s : Nat)
    (h0 : 0 ≤ start)
    (hend : start + s ≤ ((src.annotations.length + src.max_overflow_value : Nat) : Int)) :
    (annGetSlice src start (start + s) 1).length = s := by
  have hstart_le : start ≤ ((src.annotations.length + src.max_overflow_value : Nat) : Int) :=
    le_trans (le_add_of_nonneg_right (Int.natCast_nonneg s)) hend
  have hstop0 : 0 ≤ start + s := add_nonneg h0 (Int.natCast_nonneg s)
  simp only [annGetSlice]
  rw [pyAdjIndex_of_nonneg_le start _ h0 hstart_le,
    pyAdjIndex_of_nonneg_le (start + s) _ hstop0 hend,
    List.length_map, pyRange_one_length]
  omega

/-- The cumulative count at the resolved index splits into the previous
cumulative count plus the per-video count of that index. -/
lemma cumulative_getD_split {F : Type} (videos : List (List F)) (s : Nat)
    (v : Nat) (hv : v < videos.length) :
    ((cumulative_counts videos s).getD v 0 : Int) =
      previous_frames videos s v +
        ((videos_cropped_frames_number videos s).getD v 0 : Nat) := by
  have hvc : v < (videos_cropped_frames_number videos s).length := by
    rw [counts_length]
    exact hv
  cases v with
  | zero =>
    cases hc : videos_cropped_frames_number videos s with
    | nil =>
      rw [hc] at hvc
      simp at hvc
    | cons c cs =>
      have hz : (cumulative_counts videos s).getD 0 0 = c := by
        have : cumulative_counts videos s = accumFrom 0 (c :: cs) := by
          rw [cumulative_counts, accumulate, hc]
        rw [this, accumFrom_getD_zero]
        omega
      rw [hz]
      simp [previous_frames]
  | succ k =>
    have hk : k + 1 < (videos_cropped_frames_number videos s).length := hvc
    have hsplit := accumFrom_getD_succ 0 (videos_cropped_frames_number videos s) k hk
    have hcum : (cumulative_counts videos s).getD (k + 1) 0 =
        (cumulative_counts videos s).getD k 0 +
          (videos_cropped_frames_number videos s).getD (k + 1) 0 := hsplit
    rw [hcum, previous_frames, if_neg (Nat.succ_ne_zero k)]
    push_cast
    simp

/-- C4 counterexample: on a dataset of one 2-frame video with segment size 2
and default stride, whose annotation stream is empty with overflow tolerance
0, the valid global index 0 yields 2 frames but an annotation sequence of
length 0, not 2: the slice over the annotation source is clamped to its
real length plus tolerance. -/
theorem get_full_segment_counterexample :
    getItem ([[0, 0]] : List (List Nat)) [AnnSource.mk ([] : List Nat) 9 0] 2 1 0 =
      Except.ok ([0, 0], ([] : List Nat)) ∧
    (([] : List Nat)).length ≠ 2 := ⟨rfl, by decide⟩

/-- C4 (amended): for every valid global index on a dataset with segment size
`s` and default stride, `get` returns exactly `s` frames; the annotation
sequence also has length exactly `s` provided each annotation stream, plus
its overflow tolerance, covers its paired video (without that proviso the
annotation slice is clamped and can be shorter, see the counterexample). -/
theorem get_full_segment_lengths {F A : Type} [Inhabited F] [Inhabited A]
    (videos : List (List F)) (annotations : List (AnnSource A)) (segment_size : Nat)
    (hs : 0 < segment_size) (g : Int) (hg0 : 0 ≤ g)
    (hg : g < (datasetLength videos segment_size : Int))
    (hcov : ∀ i, i < videos.length →
      (videos.getD i []).length ≤
        (annotations.getD i default).annotations.length +
          (annotations.getD i default).max_overflow_value) :
    ∃ fr an, getItem videos annotations segment_size 1 g = Except.ok (fr, an) ∧
      fr.length = segment_size ∧ an.length = segment_size := by
  obtain ⟨v, off, htrans, hvlt, hcumgt, hcumle, hoff, _hround⟩ :=
    translate_spec_aux videos segment_size hs g hg0 hg
  have hprev0 : 0 ≤ previous_frames videos segment_size v := by
    rw [previous_frames]
    split
    · exact le_refl 0
    · exact Int.natCast_nonneg _
  have hprevle : previous_frames videos segment_size v ≤ g := by
    rw [previous_frames]
    split
    · exact hg0
    · rename_i hv0
      have hj : v - 1 < v := by omega
      have := hcumle (v - 1) hj
      exact this
  have hoff0 : 0 ≤ off := by
    rw [hoff]
    exact mul_nonneg (by omega) (Int.natCast_nonneg _)
  have hsplit := cumulative_getD_split videos segment_size v hvlt
  have hkclt : g - previous_frames videos segment_size v <
      ((videos_cropped_frames_number videos segment_size).getD v 0 : Int) := by
    rw [hsplit] at hcumgt
    omega
  have hcount : (videos_cropped_frames_number videos segment_size).getD v 0 =
      (videos.getD v []).length / segment_size := counts_getD videos segment_size v hvlt
  have hframes_end : off + segment_size ≤ ((videos.getD v []).length : Int) := by
    have hk1 : g - previous_frames videos segment_size v + 1 ≤
        (((videos.getD v []).length / segment_size : Nat) : Int) := by
      rw [hcount] at hkclt
      omega
    have h1 : (g - previous_frames videos segment_size v + 1) * segment_size ≤
        (((videos.getD v []).length / segment_size : Nat) : Int) * segment_size :=
      mul_le_mul_of_nonneg_right hk1 (Int.natCast_nonneg _)
    have h2 : (((videos.getD v []).length / segment_size : Nat) : Int) * segment_size ≤
        ((videos.getD v []).length : Int) := by
      exact_mod_cast Nat.div_mul_le_self (videos.getD v []).length segment_size
    calc off + segment_size
        = (g - previous_frames videos segment_size v + 1) * segment_size := by
          rw [hoff]; ring
      _ ≤ (((videos.getD v []).length / segment_size : Nat) : Int) * segment_size := h1
      _ ≤ ((videos.getD v []).length : Int) := h2
  have hann_end : off + segment_size ≤
      (((annotations.getD v default).annotations.length +
        (annotations.getD v default).max_overflow_value : Nat) : Int) := by
    refine le_trans hframes_end ?_
    exact_mod_cast hcov v hvlt
  have hflen : (videoGetFrames (videos.getD v []) off (off + segment_size) 1).length =
      segment_size := videoGetFrames_length _ off segment_size hoff0 hframes_end
  have hfne : videoGetFrames (videos.getD v []) off (off + segment_size) 1 ≠ [] := by
    intro h
    rw [h] at hflen
    simp only [List.length_nil] at hflen
    omega
  refine ⟨videoGetFrames (videos.getD v []) off (off + segment_size) 1,
    annGetSlice (annotations.getD v default) off (off + segment_size) 1, ?_, hflen, ?_⟩
  · simp only [getItem, htrans]
    rw [transpose_default_of_ne_nil _ hfne]
  · exact annGetSlice_length _ off segment_size hoff0 hann_end

/-- Witness for C4 (amended) on one 3-frame video with a 3-entry annotation
stream, segment size 2, global index 0. -/
theorem get_full_segment_lengths_witness :
    ∃ fr an, getItem ([[0, 0, 0]] : List (List Nat))
        [AnnSource.mk ([0, 0, 0] : List Nat) 9 0] 2 1 0 = Except.ok (fr, an) ∧
      fr.length = 2 ∧ an.length = 2 :=
  get_full_segment_lengths [[0, 0, 0]] [AnnSource.mk ([0, 0, 0] : List Nat) 9 0] 2
    (by decide) 0 (by decide) (by decide) (by decide)

/-! ### C10: negative global indices and the transpose of an empty slice -/

/-- C10 counterexample: at the claim's own example `g = -1` on a dataset whose
first video has one segment (2 frames, segment size 2), the translation does
resolve to `(0, -1 * 2)` without rejecting, but the adjusted slice `[-2:0]`
is empty, the numpy array built from it is 1-dimensional, and the 4-axis
transpose raises `ValueError`, so `get(-1)` raises instead of returning a
result, refuting the claim that no error is raised. -/
theorem negative_index_transpose_raises :
    translate_virtual_video_index_to_video_index ([[0, 0]] : List (List Nat)) 2 (-1) =
      Except.ok (0, -1 * 2) ∧
    getItem ([[0, 0]] : List (List Nat)) [AnnSource.mk ([0, 0] : List Nat) 5 0] 2 1 (-1) =
      Except.error "numpy transpose: axes do not match array" := ⟨rfl, rfl⟩

/-- C10 (amended): for a dataset whose first video has at least one segment,
a negative global index `g` is not rejected as out of range: `bisect_right`
places it before every cumulative count, so the translation resolves it to
video index 0 with the negative start offset `g * segment_size`, and `get(g)`
proceeds to slice with the Python negative-index semantics (endpoints
adjusted from the end of the sequence by `slice.indices`).  The access then
returns without error exactly when the adjusted frame slice is non-empty;
when the adjusted slice is empty — as at `g = -1` — the numpy transpose of
the 1-dimensional empty array raises `ValueError` instead. -/
theorem negative_index_resolves {F A : Type} [Inhabited F] [Inhabited A]
    (videos : List (List F)) (annotations : List (AnnSource A))
    (segment_size step : Nat) (_hs : 0 < segment_size) (g : Int) (hneg : g < 0)
    (hfirst : 1 ≤ (videos.getD 0 []).length / segment_size) :
    translate_virtual_video_index_to_video_index videos segment_size g =
      Except.ok (0, g * segment_size) ∧
    (videoGetFrames (videos.getD 0 []) (g * segment_size)
        (g * segment_size + segment_size) step ≠ [] →
      getItem videos annotations segment_size step g =
        Except.ok
          (videoGetFrames (videos.getD 0 []) (g * segment_size)
            (g * segment_size + segment_size) step,
           annGetSlice (annotations.getD 0 default) (g * segment_size)
            (g * segment_size + segment_size) step)) ∧
    (videoGetFrames (videos.getD 0 []) (g * segment_size)
        (g * segment_size + segment_size) step = [] →
      getItem videos annotations segment_size step g =
        Except.error "numpy transpose: axes do not match array") := by
  have hne : videos ≠ [] := by
    intro h
    subst h
    simp at hfirst
  have hb : bisect_right (cumulative_counts videos segment_size) g = 0 := by
    cases hc : cumulative_counts videos segment_size with
    | nil => rfl
    | cons c cs =>
      have hcg : ¬ ((fun (x : Nat) => decide ((x : Int) ≤ g)) c = true) := by
        simp only [decide_eq_true_eq]
        exact not_le.mpr (lt_of_lt_of_le hneg (Int.natCast_nonneg c))
      rw [bisect_right, List.takeWhile_cons, if_neg hcg]
      rfl
  have hcl : 0 < (videos_cropped_frames_number videos segment_size).length := by
    rw [counts_length]
    exact List.length_pos.mpr hne
  have htrans : translate_virtual_video_index_to_video_index videos segment_size g =
      Except.ok (0, g * segment_size) := by
    simp only [translate_virtual_video_index_to_video_index]
    rw [hb, if_neg (not_le.mpr hcl)]
    simp [previous_frames]
  refine ⟨htrans, ?_, ?_⟩
  · intro hfne
    simp only [getItem, htrans]
    rw [transpose_default_of_ne_nil _ hfne]
  · intro hfe
    simp only [getItem, htrans, hfe, transpose_default_nil]

/-- Witness for C10 (amended) at `g = -2` on one 4-frame video with segment
size 2: the translation resolves to `(0, -4)` and the adjusted slice `[-4:-2]`
is the non-empty window `[0:2]`, so the access returns a result without
error. -/
theorem negative_index_resolves_witness :
    translate_virtual_video_index_to_video_index ([[0, 0, 0, 0]] : List (List Nat)) 2 (-2) =
      Except.ok (0, -2 * 2) ∧
    getItem ([[0, 0, 0, 0]] : List (List Nat)) [AnnSource.mk ([0, 0, 0, 0] : List Nat) 5 0] 2 1 (-2) =
      Except.ok
        (videoGetFrames ([0, 0, 0, 0] : List Nat) (-2 * 2) (-2 * 2 + 2) 1,
         annGetSlice (AnnSource.mk ([0, 0, 0, 0] : List Nat) 5 0) (-2 * 2) (-2 * 2 + 2) 1) :=
  ⟨(negative_index_resolves [[0, 0, 0, 0]] [AnnSource.mk ([0, 0, 0, 0] : List Nat) 5 0] 2 1
      (by decide) (-2) (by decide) (by decide)).1,
   (negative_index_resolves [[0, 0, 0, 0]] [AnnSource.mk ([0, 0, 0, 0] : List Nat) 5 0] 2 1
      (by decide) (-2) (by decide) (by decide)).2.1 (by decide)⟩

end VideoDatasetSpec
